import Mathlib

/-!
# Verification of the `ts-result` repository

A shallow embedding of the repository's `Result` / `AsyncResult` library.

The repository contains two variants of the same abstraction:

* a *simple* variant (`src/Result.ts` without `ErrorHolder`): the `Err` side
  of a `Result` holds the error value directly, and combinator callbacks that
  throw are *not* intercepted;
* a *checked-error-aware* variant (`src/Result.ts` with `ErrorHolder`): the
  `Err` side holds an `ErrorHolder` (a capsule tagged `CHECKED_ERROR` or
  `UNCHECKED_ERROR`) and every combinator wraps its callback invocations in
  `try`/`catch`, converting a thrown value into an `Err` with an unchecked
  holder.

We model both, sharing the representation: `Result T F` is a sum with an
`ok` branch holding a `T` and an `err` branch holding the failure payload
`F`.  The checked variant instantiates `F := ErrorHolder E W` and the simple
variant instantiates `F := E` (matching the two `ResultData` definitions in
the source, which differ exactly in the type stored on the `isOk: false`
side).  Thrown JavaScript values (whose TS type is `unknown`) are modelled
by a type parameter `W`; a computation that may throw returns
`Except W α`, with `Except.error w` meaning "threw the value `w`".
-/

/-- The `ErrorHolder<E>` capsule from `src/ErrorHolder.ts`: either a
`CheckedErrorHolder` created by `makeCheckedErrorHolder` (tag
`"CHECKED_ERROR"`, payload of the tracked type `E`) or an
`UncheckedErrorHolder` created by `makeUncheckedErrorHolder` (tag
`"UNCHECKED_ERROR"`, payload an arbitrary thrown value, modelled by `W`). -/
inductive ErrorHolder (E : Type) (W : Type) where
  | checked (error : E)
  | unchecked (error : W)
  deriving DecidableEq, Repr

/-- `makeCheckedErrorHolder` from `src/ErrorHolder.ts`. -/
def makeCheckedErrorHolder (E W : Type) (error : E) : ErrorHolder E W :=
  ErrorHolder.checked error

/-- `makeUncheckedErrorHolder` from `src/ErrorHolder.ts`. -/
def makeUncheckedErrorHolder (E W : Type) (error : W) : ErrorHolder E W :=
  ErrorHolder.unchecked error

/-- The runtime state of a `_Result<T, E>`: the `ResultData` tagged union
(`{ isOk: true; value: T } | { isOk: false; value: F }`).  In the
checked-error-aware variant `F = ErrorHolder E W`; in the simple variant
`F = E`.  Since `_Result` is an immutable wrapper around its `data` field
and structural equality is what the repository's own tests use
(`assert.deepStrictEqual`), we identify a `_Result` with its data. -/
inductive Result (T : Type) (F : Type) where
  | ok (value : T)
  | err (value : F)
  deriving DecidableEq, Repr

namespace Result

/-- `result.data.isOk`. -/
def isOk {T F : Type} : Result T F → Bool
  | .ok _ => true
  | .err _ => false

/-- The `Ok(arg)` constructor. -/
def Ok {T F : Type} (arg : T) : Result T F := Result.ok arg

/-- The `Err(error)` constructor of the checked-error-aware variant: wraps
the error in a checked holder. -/
def Err {T E W : Type} (error : E) : Result T (ErrorHolder E W) :=
  Result.err (ErrorHolder.checked error)

/-- The `ErrUnchecked(error)` constructor of the checked-error-aware
variant: wraps a thrown value in an unchecked holder. -/
def ErrUnchecked {T E W : Type} (error : W) : Result T (ErrorHolder E W) :=
  Result.err (ErrorHolder.unchecked error)

end Result

/-- The value a combinator callback returns: `T2 | Result<T2, E2>` in the
source.  `plain` is a non-`Result` value (the `isResult(it)` test in
`toResult` fails); `res` is a `Result`. -/
inductive CbRet (T : Type) (F : Type) where
  | plain (value : T)
  | res (r : Result T F)
  deriving DecidableEq, Repr

/-- `toResult` from the checked-error-aware `src/Result.ts`:
`isResult(it) ? it : Ok(it)`.  (A `Result` is returned as-is; a plain value
is wrapped in `Ok`.) -/
def toResult {T F : Type} : CbRet T F → Result T F
  | .plain v => Result.ok v
  | .res r => r

namespace Result

/-- `then_` from the checked-error-aware `src/Result.ts`.  On `ok`, the
first callback runs on the value; on `err`, the second callback (when
present) runs on the holder, and otherwise `this` is returned as-is.  The
whole dispatch is inside `try { ... } catch (error) { return
ErrUnchecked(error); }`, so a throw from either callback (modelled by the
callback returning `Except.error`) becomes an `Err` with an unchecked
holder.  (TS lets the callbacks' `T2`/`E2` differ from `T`/`E`; types are
erased at runtime, and the claims under verification only need the
homogeneous instantiations, so the embedding keeps one value type and one
error type per call.) -/
def then_ {T T2 E W : Type} (self : Result T (ErrorHolder E W))
    (okCb : T → Except W (CbRet T2 (ErrorHolder E W)))
    (errCb : Option (ErrorHolder E W → Except W (CbRet T2 (ErrorHolder E W)))) :
    Result T2 (ErrorHolder E W) :=
  match self with
  | .ok v =>
    match okCb v with
    | .ok ret => toResult ret
    | .error thrown => ErrUnchecked thrown
  | .err h =>
    match errCb with
    | some cb =>
      match cb h with
      | .ok ret => toResult ret
      | .error thrown => ErrUnchecked thrown
    | none => Result.err h

/-- `catch_` from the checked-error-aware `src/Result.ts`.  On `ok`,
`this` is returned as-is without calling the callback; on `err`, the
callback runs on the holder, with its result fed through `toResult` and a
throw captured as an unchecked `Err`. -/
def catch_ {T E W : Type} (self : Result T (ErrorHolder E W))
    (cb : ErrorHolder E W → Except W (CbRet T (ErrorHolder E W))) :
    Result T (ErrorHolder E W) :=
  match self with
  | .ok v => Result.ok v
  | .err h =>
    match cb h with
    | .ok ret => toResult ret
    | .error thrown => ErrUnchecked thrown

/-- `finally_` from the checked-error-aware `src/Result.ts`.  The callback
(which returns `void | Result<never, E2>`, modelled as
`Option (Result T (ErrorHolder E W))`) is run via a wrapper `fn` that
returns the callback's result when it is an `Err` `Result` and `this`
otherwise; `fn` is passed to `then_` as both the success and the error
callback, so the callback always runs and a throw is captured by `then_`'s
`try`/`catch`. -/
def finally_ {T E W : Type} (self : Result T (ErrorHolder E W))
    (cb : Unit → Except W (Option (Result T (ErrorHolder E W)))) :
    Result T (ErrorHolder E W) :=
  let fn : Except W (CbRet T (ErrorHolder E W)) :=
    (cb ()).map fun newResult =>
      match newResult with
      | some r => if r.isOk then CbRet.res self else CbRet.res r
      | none => CbRet.res self
  then_ self (fun _ => fn) (some fun _ => fn)

end Result

/-- A JavaScript `AggregateError`, as used by `Result.any`: carries the
`errors` array it was constructed with.  In the checked-error-aware
variant this array holds the failed results' `ErrorHolder`s. -/
structure AggregateError (A : Type) where
  errors : List A
  deriving DecidableEq, Repr

namespace Result

/-- The loop body of `Result.all` (checked-error-aware `src/Result.ts`):
walk the results left to right, pushing each `ok` value onto `okValues`;
on the first result that is not `ok`, return that result itself;
if the loop completes, return `Ok(okValues)`. -/
def allLoop {T F : Type} (okValues : List T) :
    List (Result T F) → Result (List T) F
  | [] => Result.ok okValues
  | r :: rest =>
    match r with
    | .ok v => allLoop (okValues ++ [v]) rest
    | .err h => Result.err h

/-- `Result.all` from the checked-error-aware `src/Result.ts`. -/
def all {T F : Type} (results : List (Result T F)) : Result (List T) F :=
  allLoop [] results

/-- The loop body of `Result.any` (checked-error-aware `src/Result.ts`):
walk the results left to right; the first `ok` result is returned as-is;
each `err` result's holder is pushed onto `errValues`; if the loop
completes (all were `err`), return
`Err(new AggregateError(errValues))` — a *checked* Err holding the
aggregate. -/
def anyLoop {T E W : Type} (errValues : List (ErrorHolder E W)) :
    List (Result T (ErrorHolder E W)) →
      Result T (ErrorHolder (AggregateError (ErrorHolder E W)) W)
  | [] => Err (AggregateError.mk errValues)
  | r :: rest =>
    match r with
    | .ok v => Result.ok v
    | .err h => anyLoop (errValues ++ [h]) rest

/-- `Result.any` from the checked-error-aware `src/Result.ts`. -/
def any {T E W : Type} (results : List (Result T (ErrorHolder E W))) :
    Result T (ErrorHolder (AggregateError (ErrorHolder E W)) W) :=
  anyLoop [] results

/-- `then_` applied to a single pure `Result`-returning function, the way
`Result.compose`'s implementation invokes it: `result.then_(fn)` with `fn`
a function `(v) => Result` that does not throw and no error callback. -/
def thenFn {T E W : Type} (self : Result T (ErrorHolder E W))
    (fn : T → Result T (ErrorHolder E W)) : Result T (ErrorHolder E W) :=
  then_ self (fun v => Except.ok (CbRet.res (fn v))) none

/-- The loop inside the function that `Result.compose` (the variadic `c` in
`src/Result.ts`) returns: starting from `result = fn(v)` (the first
function applied to the argument), repeatedly replace `result` with
`result.then_(fn)` for each remaining function, in order. -/
def composeLoop {T E W : Type} (result : Result T (ErrorHolder E W)) :
    List (T → Result T (ErrorHolder E W)) → Result T (ErrorHolder E W)
  | [] => result
  | fn :: restFns => composeLoop (thenFn result fn) restFns

/-- `Result.compose` (the variadic `c` in the checked-error-aware
`src/Result.ts`): given a non-empty chain of `Result`-returning functions
(modelled as a head `f0` plus the list of the remaining functions, which
the source obtains by destructuring `[fn, ...restFns]`), return the
function that applies the first to the argument and threads the result
through `then_` across the rest.  The source's overloads cover 2 to 11
functions; the runtime implementation is this single variadic loop. -/
def compose {A T E W : Type} (f0 : A → Result T (ErrorHolder E W))
    (restFns : List (T → Result T (ErrorHolder E W))) :
    A → Result T (ErrorHolder E W) :=
  fun v => composeLoop (f0 v) restFns

end Result

/-- Modelled from the spec (§4.2, §8): "threading a single input through
`then_` across all given functions in order" — the right-hand side of the
`compose` claim, `f1(x).then_(f2).then_(...).then_(fn)`, written as a fold
of `then_` over the functions.  This is the spec-side definition that
`Result.compose` is compared against. -/
def specThenThread {A T E W : Type} (x : A)
    (f1 : A → Result T (ErrorHolder E W))
    (fns : List (T → Result T (ErrorHolder E W))) :
    Result T (ErrorHolder E W) :=
  fns.foldl (fun acc f => acc.thenFn f) (f1 x)

/-!
## Generators and `Result.run`

`Result.run` drives a JavaScript generator: it repeatedly calls
`gen.next(v)` (injecting the unwrapped value of the previous `Ok` yield),
and

* if `next` yields a `Result` that is an `Err`, it sets `done`, calls
  `gen.return(value)` so the generator's `finally` blocks run, and that
  `Err` becomes the final result;
* if `next` yields an `Ok`, the loop continues and `then_` unwraps the
  value for the next `gen.next` call;
* if `next` completes (`done: true`), the returned value goes through
  `toResult` (an `Err` return value is also, per the same branch, returned
  as-is after a no-op `gen.return` on the already-completed generator);
* if `gen.next` throws (the generator body threw past all of its own
  `catch` blocks, its `finally` blocks having run during unwinding), the
  checked-error-aware variant catches the exception and produces
  `ErrUnchecked(error)`, while the simple variant has no `try`/`catch`
  there so the exception propagates out of `run` to its caller.

We model the generator *body* as an inductive syntax `Body` covering the
constructs the claims quantify over — `return`, `throw`, `yield*` of a
`Result` with a continuation receiving the injected value, `try`/`catch`,
`try`/`finally` (with the `finally` block's observable behaviour recorded
as an effect id), and a bare observable effect — and give it the JS
generator semantics fused with `run`'s driver loop: because `run` resumes
the generator exactly by applying the suspended continuation to the
unwrapped `Ok` value, suspension/resumption is recursion into the
continuation, with enclosing `try` constructs staying in force.  Effects
that actually execute are appended in order to a trace, so "the `finally`
block ran" and "the `catch` block was never invoked" are observable.
-/

/-- A generator body, as `Result.run` can drive it.  `A` is the type of
values injected at `yield*` points (and of yielded `Ok` payloads), `F` the
failure payload of yielded `Result`s, and `W` the type of thrown values.
Effects (`Nat` ids) model externally observable actions such as the
`finallyRan = true` assignments in the repository's tests. -/
inductive Body (A : Type) (F : Type) (W : Type) where
  /-- `return v` ends the generator; `v` reaches `run` as the
  `done: true` value and goes through `toResult`. -/
  | ret (value : CbRet A F)
  /-- `throw w` from the generator's own code. -/
  | throwB (thrown : W)
  /-- `yield* r` with continuation `k` on the injected value. -/
  | yieldB (res : Result A F) (k : A → Body A F W)
  /-- `try { body } catch (w) { handler w }`. -/
  | tryCatchB (body : Body A F W) (handler : W → Body A F W)
  /-- `try { body } finally { <effect fin> }`: the `finally` block's
  execution is observable as the effect id `fin`. -/
  | tryFinallyB (body : Body A F W) (fin : Nat)
  /-- an observable effect, then continue. -/
  | effB (eff : Nat) (k : Body A F W)

/-- The overall outcome of driving a generator body to completion. -/
inductive RunRes (A : Type) (F : Type) (W : Type) where
  /-- the generator completed; its return value (pre-`toResult`). -/
  | finished (value : CbRet A F)
  /-- the generator yielded an `Err` `Result`: `run` set `done`, invoked
  `gen.return` (running the pending `finally` blocks, skipping `catch`
  blocks), and this holder's `Err` is the final result. -/
  | errStop (holder : F)
  /-- the generator body threw `thrown` past all of its own `catch`
  blocks; `gen.next` raised it to `run`'s loop. -/
  | raised (thrown : W)
  deriving DecidableEq, Repr

/-- `Result.run`'s driver loop fused with JS generator semantics, with an
effect-trace accumulator.  Equation by equation:

* `ret v`: generator completes with `v`.
* `throwB w`: the body throws; propagates outward (enclosing
  `tryCatchB`/`tryFinallyB` equations below intercept it).
* `effB e k`: the effect executes (appended to the trace), continue.
* `yieldB (ok a) k`: `run` sees a yielded `Ok`, loops, and `then_`
  injects the unwrapped `a` back into the generator — i.e. execution
  continues as `k a`.
* `yieldB (err h) k`: `run` sees a yielded `Err`, sets `done`, calls
  `gen.return` and returns the `Err`; the continuation `k` is never
  resumed.  Pending `finally` effects are appended by the enclosing
  `tryFinallyB` equation; pending `catch` handlers are skipped by the
  enclosing `tryCatchB` equation (per JS, `gen.return` runs `finally`
  blocks but not `catch` blocks).
* `tryFinallyB b f`: whatever way the protected region ends — normal
  completion, uncaught throw unwinding, or `gen.return` after an `Err`
  yield — the `finally` block runs, so `f` is appended to the region's
  trace and the outcome passes through.
* `tryCatchB b h`: a throw from the protected region is caught and the
  handler body runs in its place; completion and `Err`-yield termination
  pass through without invoking the handler. -/
def runGen {A F W : Type} : Body A F W → List Nat → List Nat × RunRes A F W
  | .ret v, tr => (tr, .finished v)
  | .throwB w, tr => (tr, .raised w)
  | .effB e k, tr => runGen k (tr ++ [e])
  | .yieldB r k, tr =>
    match r with
    | .ok a => runGen (k a) tr
    | .err h => (tr, .errStop h)
  | .tryFinallyB b f, tr =>
    match runGen b tr with
    | (tr2, res) => (tr2 ++ [f], res)
  | .tryCatchB b h, tr =>
    match runGen b tr with
    | (tr2, .raised w) => runGen (h w) tr2
    | (tr2, res) => (tr2, res)

namespace Result

/-- `Result.run` from the checked-error-aware `src/Result.ts`, paired with
the trace of effects the generator executed.  The loop's callback wraps
`gen.next` in `try`/`catch`: a completed generator's return value goes
through `toResult`, a yielded `Err` is returned as the result (after
`gen.return`-driven cleanup), and an exception thrown by the generator
body is caught, ends the loop, and becomes `ErrUnchecked(error)`. -/
def run {A E W : Type} (b : Body A (ErrorHolder E W) W) :
    List Nat × Result A (ErrorHolder E W) :=
  match runGen b [] with
  | (tr, .finished v) => (tr, toResult v)
  | (tr, .errStop h) => (tr, Result.err h)
  | (tr, .raised w) => (tr, ErrUnchecked w)

/-- `Result.run` from the simple variant of `src/Result.ts` (the one
without `ErrorHolder`), paired with the trace of effects the generator
executed.  Its loop body has no `try`/`catch`, so when the generator body
throws, the exception propagates through `then_` and out of `run` to
`run`'s caller — modelled by the `Except.error` outcome.  The trace is
still reported because the generator's `finally` blocks run while the
exception unwinds, before `run`'s caller sees it. -/
def runSimple {A E W : Type} (b : Body A E W) :
    List Nat × Except W (Result A E) :=
  match runGen b [] with
  | (tr, .finished v) => (tr, Except.ok (toResult v))
  | (tr, .errStop e) => (tr, Except.ok (Result.err e))
  | (tr, .raised w) => (tr, Except.error w)

end Result

/-!
## The asynchronous substrate and `AsyncResult`

Claims C8 and C9 concern `src/AsyncResult.ts` in the simple (non-
`ErrorHolder`) variant: an `_AsyncResult<T, E>` wraps `resultPromise`, a
promise whose eventual settlement either fulfills with a `Result<T, E>` or
rejects with a raw reason.  For these claims only the eventual settlement
matters (no interleaving is involved), so a promise is modelled by its
settlement: fulfilled with a value, or rejected with a reason of type
`R` (the TS `unknown`).
-/

/-- The eventual settlement of a JS promise of an `α`, with rejection
reasons of type `R`. -/
inductive Promise (α : Type) (R : Type) where
  | resolved (value : α)
  | rejected (reason : R)
  deriving DecidableEq, Repr

namespace Promise

/-- `promise.then(onFulfilled)` with no rejection handler: the handler
maps a fulfillment; a rejection passes through. -/
def thenFul {α β R : Type} (p : Promise α R) (onFulfilled : α → β) :
    Promise β R :=
  match p with
  | .resolved v => .resolved (onFulfilled v)
  | .rejected r => .rejected r

/-- `promise.then(onFulfilled, onRejected?)` with pure handlers: a
fulfillment runs the first handler; a rejection runs the second when it is
a function, and otherwise propagates. -/
def thenBoth {α β R : Type} (p : Promise α R) (onFulfilled : α → β)
    (onRejected : Option (R → β)) : Promise β R :=
  match p with
  | .resolved v => .resolved (onFulfilled v)
  | .rejected r =>
    match onRejected with
    | some cb => .resolved (cb r)
    | none => .rejected r

end Promise

/-- One entry of `Promise.allSettled`'s result array:
`{status: "fulfilled", value}` or `{status: "rejected", reason}`. -/
inductive PSettled (α : Type) (R : Type) where
  | fulfilled (value : α)
  | rejectedWith (reason : R)
  deriving DecidableEq, Repr

/-- The host's `Promise.allSettled`: waits for every member and fulfills
with one settlement record per member, in input order; it never rejects
(its own rejection type is any `R2`). -/
def Promise.allSettledJS {α R R2 : Type} (ps : List (Promise α R)) :
    Promise (List (PSettled α R)) R2 :=
  .resolved (ps.map fun p =>
    match p with
    | .resolved v => .fulfilled v
    | .rejected r => .rejectedWith r)

/-- The simple variant's `Result.valueOrFallback` (`src/Result.ts`):
`this.data.isOk ? this.data.value : getFallback(this.data.value)`.  The TS
return type is the union `T | U`, modelled as a sum. -/
def Result.valueOrFallback {T F U : Type} (self : Result T F)
    (getFallback : F → U) : T ⊕ U :=
  match self with
  | .ok v => Sum.inl v
  | .err e => Sum.inr (getFallback e)

/-- `_AsyncResult<T, E>` from the simple variant's `src/AsyncResult.ts`:
a wrapper around `resultPromise`. -/
structure AsyncResult (T : Type) (E : Type) (R : Type) where
  resultPromise : Promise (Result T E) R
  deriving DecidableEq, Repr

namespace AsyncResult

/-- `valueOrFallback(errCb, rejectionCb?)` from the simple variant's
`src/AsyncResult.ts`:
`this.resultPromise.then((result) => result.valueOrFallback(errCb),
rejectionCb)`.  A fulfillment dispatches on the settled `Result` (an `Ok`
gives its value, an `Err` gives `errCb` applied to the error); a substrate
rejection runs `rejectionCb` when provided and otherwise propagates as a
rejection. -/
def valueOrFallback {T E R U : Type} (self : AsyncResult T E R)
    (errCb : E → U) (rejectionCb : Option (R → U)) : Promise (T ⊕ U) R :=
  self.resultPromise.thenBoth
    (fun result => result.valueOrFallback errCb)
    (rejectionCb.map fun cb r => Sum.inr (cb r))

end AsyncResult

/-- One record of `AsyncResult.allSettled`'s result array:
`{type: "ok", value}`, `{type: "err", value}`, or
`{type: "rejection", value}`. -/
inductive SettledRecord (T : Type) (E : Type) (R : Type) where
  | okRec (value : T)
  | errRec (value : E)
  | rejectionRec (value : R)
  deriving DecidableEq, Repr

/-- The arrow inside `AsyncResult.allSettled`'s `.then`: a fulfilled
member maps to `{type: it.value.data.isOk ? "ok" : "err", value:
it.value.data.value}` and a rejected member to
`{type: "rejection", value: it.reason}`. -/
def settledToRecord {T E R : Type} :
    PSettled (Result T E) R → SettledRecord T E R
  | .fulfilled (.ok v) => .okRec v
  | .fulfilled (.err e) => .errRec e
  | .rejectedWith r => .rejectionRec r

/-- `toResultPromise` from the simple variant's `src/AsyncResult.ts`, at
the instantiation `AsyncResult.allSettled` uses it with: the argument is a
promise whose fulfillment value (the record array) is neither a `Result`
nor an `_AsyncResult`, so the `isResult`/`instanceof _AsyncResult`
dispatch falls through to `Ok(awaited)`; when the argument promise
rejects, the `await` rethrows and the surrounding `async` function
rejects with the same reason. -/
def toResultPromiseOfPlain {α E R : Type} (p : Promise α R) :
    Promise (Result α E) R :=
  match p with
  | .resolved v => .resolved (Result.ok v)
  | .rejected r => .rejected r

/-- `AsyncResult.allSettled` from the simple variant's
`src/AsyncResult.ts`: run the host `Promise.allSettled` over the members'
`resultPromise`s, map each settlement to its tagged record, and wrap the
resulting promise via the `AsyncResult` constructor (which applies
`toResultPromise`).  The declared error type is `never`, modelled as
`Empty`. -/
def AsyncResult.allSettled {T E R R2 : Type}
    (asyncResults : List (AsyncResult T E R)) :
    AsyncResult (List (SettledRecord T E R)) Empty R2 :=
  AsyncResult.mk (toResultPromiseOfPlain
    ((Promise.allSettledJS (asyncResults.map (fun it => it.resultPromise))).thenFul
      (fun settledResults => settledResults.map settledToRecord)))

/-!
## Helper lemmas
-/

theorem allLoop_map_ok_append {T F : Type} (vs : List T) (acc : List T)
    (rest : List (Result T F)) :
    Result.allLoop acc (vs.map Result.ok ++ rest) =
      Result.allLoop (acc ++ vs) rest := by
  induction vs generalizing acc with
  | nil => simp [Result.allLoop]
  | cons v vs ih =>
    simp only [List.map_cons, List.cons_append, Result.allLoop, List.append_eq]
    rw [ih]
    simp

theorem allLoop_exists_ok {T F : Type} (rs : List (Result T F))
    (acc : List T) :
    (∃ ws, Result.allLoop acc rs = Result.ok ws) ↔
      ∀ r ∈ rs, r.isOk = true := by
  induction rs generalizing acc with
  | nil => simp [Result.allLoop]
  | cons r rs ih =>
    cases r with
    | ok v => simp [Result.allLoop, Result.isOk, ih]
    | err h => simp [Result.allLoop, Result.isOk]

theorem anyLoop_map_err_append {T E W : Type} (hs : List (ErrorHolder E W))
    (acc : List (ErrorHolder E W))
    (rest : List (Result T (ErrorHolder E W))) :
    Result.anyLoop acc (hs.map Result.err ++ rest) =
      Result.anyLoop (acc ++ hs) rest := by
  induction hs generalizing acc with
  | nil => simp [Result.anyLoop]
  | cons h hs ih =>
    simp only [List.map_cons, List.cons_append, Result.anyLoop, List.append_eq]
    rw [ih]
    simp

theorem composeLoop_eq_foldl {T E W : Type}
    (fns : List (T → Result T (ErrorHolder E W)))
    (r : Result T (ErrorHolder E W)) :
    Result.composeLoop r fns = fns.foldl (fun acc f => acc.thenFn f) r := by
  induction fns generalizing r with
  | nil => rfl
  | cons fn fns ih => simp [Result.composeLoop, List.foldl, ih]

/-!
## Claim theorems
-/

/-- C1, counterexample to the claim as stated: in the checked-error-aware
variant, a generator that yields a successful `Ok 42` and then throws the
native value `"Hi"` from its own body does *not* cause `Result.run` to
raise; `run` catches the exception and returns a Failure — an `Err` whose
holder is `Unchecked` with payload `"Hi"` (exactly what the variant's own
test expects of `ErrUnchecked(new Error("Hi"))`). -/
theorem C1_counterexample :
    Result.run (Body.yieldB (Result.ok 42)
        (fun (_ : Nat) => Body.throwB "Hi")) =
      ([], Result.ErrUnchecked (E := Nat) "Hi") := by
  rfl

/-- C1 (amended): (1) in the *simple* variant, a generator that throws `w`
from its own body after a successful yield causes `run` itself to raise
`w` to its caller (the generator's pending `finally` cleanup, effect `n`
here, still runs during unwinding); (2) in the *checked-error-aware*
variant, the same generator instead makes `run` return an `Err` whose
holder is `Unchecked` with payload `w`; (3) in both variants, a generator
that yields an `Err` inside `try`/`catch` does not have the catch block
invoked: the outcome is that `Err`, with an empty effect trace,
independently of the handler. -/
theorem C1_run_exception_vs_failure_amended :
    (∀ (A E W : Type) (a : A) (n : Nat) (w : W),
      Result.runSimple (Body.yieldB (Result.ok a)
          (fun _ => Body.tryFinallyB (Body.throwB w) n)) =
        ([n], (Except.error w : Except W (Result A E)))) ∧
    (∀ (A E W : Type) (a : A) (n : Nat) (w : W),
      Result.run (Body.yieldB (Result.ok a)
          (fun _ => Body.tryFinallyB (Body.throwB w) n)) =
        ([n], Result.ErrUnchecked (T := A) (E := E) w)) ∧
    (∀ (A E W : Type) (f : E) (k : A → Body A E W)
        (handler : W → Body A E W),
      Result.runSimple (Body.tryCatchB (Body.yieldB (Result.err f) k)
          handler) =
        ([], Except.ok (Result.err f))) ∧
    (∀ (A E W : Type) (h : ErrorHolder E W)
        (k : A → Body A (ErrorHolder E W) W)
        (handler : W → Body A (ErrorHolder E W) W),
      Result.run (Body.tryCatchB (Body.yieldB (Result.err h) k) handler) =
        ([], Result.err h)) := by
  refine ⟨fun A E W a n w => rfl, fun A E W a n w => rfl,
    fun A E W f k handler => rfl, fun A E W h k handler => rfl⟩

/-- C2: in the checked-error-aware variant, whenever the callback that
`then_`, `catch_`, or `finally_` invokes throws the value `v`, the
returned `Result` is an `Err` whose `ErrorHolder` is `Unchecked` and whose
held payload is exactly `v` — the exception never escapes the combinator.
Covered cases: `then_`'s success callback (invoked on an `Ok`), `then_`'s
error callback (invoked on an `Err` when provided), `catch_`'s callback
(invoked on an `Err`), and `finally_`'s callback (invoked on any
`Result`). -/
theorem C2_callback_throw_capture :
    (∀ (T T2 E W : Type) (t : T) (v : W)
        (errCb : Option (ErrorHolder E W →
          Except W (CbRet T2 (ErrorHolder E W)))),
      Result.then_ (Result.ok t) (fun _ => Except.error v) errCb =
        Result.ErrUnchecked v) ∧
    (∀ (T T2 E W : Type) (h : ErrorHolder E W) (v : W)
        (okCb : T → Except W (CbRet T2 (ErrorHolder E W))),
      Result.then_ (Result.err h) okCb (some fun _ => Except.error v) =
        Result.ErrUnchecked v) ∧
    (∀ (T E W : Type) (h : ErrorHolder E W) (v : W),
      Result.catch_ (T := T) (Result.err h) (fun _ => Except.error v) =
        Result.ErrUnchecked v) ∧
    (∀ (T E W : Type) (r : Result T (ErrorHolder E W)) (v : W),
      Result.finally_ r (fun _ => Except.error v) =
        Result.ErrUnchecked v) := by
  refine ⟨fun T T2 E W t v errCb => rfl, fun T T2 E W h v okCb => rfl,
    fun T E W h v => rfl, fun T E W r v => ?_⟩
  cases r <;> rfl

/-- C4: in the checked-error-aware variant, `then_` on an `Err` with no
error callback returns that `Err` unchanged without invoking the success
callback (the result is independent of the callback, so the callback is
never run); and `catch_` on an `Ok` returns that `Ok` unchanged without
invoking its callback. -/
theorem C4_short_circuit_identity :
    (∀ (T T2 E W : Type) (h : ErrorHolder E W)
        (cb : T → Except W (CbRet T2 (ErrorHolder E W))),
      Result.then_ (Result.err h) cb none = Result.err h) ∧
    (∀ (T E W : Type) (t : T)
        (cb : ErrorHolder E W → Except W (CbRet T (ErrorHolder E W))),
      Result.catch_ (Result.ok t) cb = Result.ok t) := by
  exact ⟨fun T T2 E W h cb => rfl, fun T E W t cb => rfl⟩

/-- C3: for a generator that enters a `try`/`finally` block (with `finally`
effect `f`), performs some work (effect `n`), and then yields an `Err`
inside the protected region, `Result.run` (in both variants) (a) returns
that `Err` as its result and (b) still executes the `finally` block before
returning: the effect trace ends with `f`. -/
theorem C3_run_cleanup_on_err_yield :
    (∀ (A E W : Type) (h : ErrorHolder E W)
        (k : A → Body A (ErrorHolder E W) W) (n f : Nat),
      Result.run (Body.tryFinallyB
          (Body.effB n (Body.yieldB (Result.err h) k)) f) =
        ([n, f], Result.err h)) ∧
    (∀ (A E W : Type) (e : E) (k : A → Body A E W) (n f : Nat),
      Result.runSimple (Body.tryFinallyB
          (Body.effB n (Body.yieldB (Result.err e) k)) f) =
        ([n, f], Except.ok (Result.err (T := A) e))) := by
  exact ⟨fun A E W h k n f => rfl, fun A E W e k n f => rfl⟩

/-- C5: `Result.all` returns `Ok` of the list of all success values, in
input order, when every element is `Ok`; when some element fails, it
returns the first `Err` scanning left to right; and it returns an `Ok` at
all if and only if every element is `Ok`. -/
theorem C5_all_spec :
    (∀ (T F : Type) (vs : List T),
      Result.all (vs.map Result.ok : List (Result T F)) = Result.ok vs) ∧
    (∀ (T F : Type) (vs : List T) (h : F) (suf : List (Result T F)),
      Result.all (vs.map Result.ok ++ Result.err h :: suf) =
        Result.err h) ∧
    (∀ (T F : Type) (rs : List (Result T F)),
      (∃ ws, Result.all rs = Result.ok ws) ↔ ∀ r ∈ rs, r.isOk = true) := by
  refine ⟨fun T F vs => ?_, fun T F vs h suf => ?_, fun T F rs => ?_⟩
  · have := allLoop_map_ok_append (F := F) vs [] []
    simpa [Result.all, Result.allLoop] using this
  · have := allLoop_map_ok_append vs [] (Result.err h :: suf)
    simpa [Result.all, Result.allLoop] using this
  · exact allLoop_exists_ok rs []

/-- C6: `Result.any` returns the first `Ok` in list order when at least
one element is `Ok` (everything before it being `Err`s); when every
element is an `Err`, it returns a single aggregate `Err` — a checked
holder around an `AggregateError` bundling every constituent failure's
`ErrorHolder`, in list order, so each failure's checked/unchecked tagging
is preserved in the bundle. -/
theorem C6_any_spec :
    (∀ (T E W : Type) (hs : List (ErrorHolder E W)) (v : T)
        (suf : List (Result T (ErrorHolder E W))),
      Result.any (hs.map Result.err ++ Result.ok v :: suf) =
        Result.ok v) ∧
    (∀ (T E W : Type) (hs : List (ErrorHolder E W)),
      Result.any (hs.map Result.err : List (Result T (ErrorHolder E W))) =
        Result.Err (AggregateError.mk hs)) := by
  refine ⟨fun T E W hs v suf => ?_, fun T E W hs => ?_⟩
  · have := anyLoop_map_err_append (T := T) hs [] (Result.ok v :: suf)
    simpa [Result.any, Result.anyLoop] using this
  · have := anyLoop_map_err_append (T := T) hs [] []
    simpa [Result.any, Result.anyLoop] using this

/-- C7: the function `Result.compose` returns, applied to `x`, produces
the same `Result` as threading `x` through `then_` across the given
functions in order (the spec-side `specThenThread`); in particular, for
two functions, `compose f0 [f1] x = (f0 x).then_(f1)`. -/
theorem C7_compose_then_chain :
    (∀ (A T E W : Type) (f0 : A → Result T (ErrorHolder E W))
        (fns : List (T → Result T (ErrorHolder E W))) (x : A),
      Result.compose f0 fns x = specThenThread x f0 fns) ∧
    (∀ (A T E W : Type) (f0 : A → Result T (ErrorHolder E W))
        (f1 : T → Result T (ErrorHolder E W)) (x : A),
      Result.compose f0 [f1] x = (f0 x).thenFn f1) := by
  refine ⟨fun A T E W f0 fns x => ?_, fun A T E W f0 f1 x => rfl⟩
  simpa [Result.compose, specThenThread] using
    composeLoop_eq_foldl fns (f0 x)

/-- C8: for an `AsyncResult` that settles as an `Err`,
`valueOrFallback(onFailure, onRejection)` produces `onFailure` applied to
the error, with the outcome independent of `onRejection` (so `onRejection`
is never invoked); for an `AsyncResult` whose underlying promise rejects,
it produces `onRejection` applied to the reason, with the outcome
independent of `onFailure` (so `onFailure` is never invoked): the two
failure channels are never conflated. -/
theorem C8_two_failure_channels :
    (∀ (T E R U : Type) (e : E) (errCb : E → U) (rejectionCb : R → U),
      (AsyncResult.mk (T := T)
          (Promise.resolved (Result.err e))).valueOrFallback errCb
          (some rejectionCb) =
        Promise.resolved (Sum.inr (errCb e))) ∧
    (∀ (T E R U : Type) (r : R) (errCb : E → U) (rejectionCb : R → U),
      (AsyncResult.mk (T := T) (E := E)
          (Promise.rejected r)).valueOrFallback errCb
          (some rejectionCb) =
        Promise.resolved (Sum.inr (rejectionCb r))) := by
  exact ⟨fun T E R U e errCb rejectionCb => rfl,
    fun T E R U r errCb rejectionCb => rfl⟩

/-- C9: `AsyncResult.allSettled`, on any mix of `Ok`-settled,
`Err`-settled, and rejected members, always settles successfully — its
`resultPromise` is fulfilled with an `Ok` (the error type is `Empty`, and
it is neither an `Err` nor a rejection) holding exactly one tagged record
per input member, in input order, whose tag identifies the member's
channel: `okRec` for a promise fulfilled with an `Ok`, `errRec` for a
promise fulfilled with an `Err`, `rejectionRec` for a rejected promise. -/
theorem C9_allSettled_total :
    ∀ (T E R R2 : Type) (ars : List (AsyncResult T E R)),
      @AsyncResult.allSettled T E R R2 ars =
        AsyncResult.mk (Promise.resolved (Result.ok (ars.map fun ar =>
          match ar.resultPromise with
          | .resolved (.ok v) => SettledRecord.okRec v
          | .resolved (.err e) => SettledRecord.errRec e
          | .rejected r => SettledRecord.rejectionRec r))) := by
  intro T E R R2 ars
  simp only [AsyncResult.allSettled, Promise.allSettledJS, Promise.thenFul,
    toResultPromiseOfPlain, List.map_map]
  refine congrArg AsyncResult.mk (congrArg Promise.resolved
    (congrArg Result.ok (List.map_congr_left fun ar _ => ?_)))
  cases har : ar.resultPromise with
  | resolved res => cases res <;> simp [Function.comp, settledToRecord, har]
  | rejected r => simp [Function.comp, settledToRecord, har]

/-- C10: on the empty input list, `Result.all` returns `Ok` of the empty
array, while `Result.any` returns a checked `Err` holding an
`AggregateError` whose bundled errors list is empty — "all of nothing"
succeeds while "any of nothing" fails. -/
theorem C10_empty_list_edge :
    ∀ (T E W : Type),
      Result.all ([] : List (Result T (ErrorHolder E W))) =
          Result.ok [] ∧
        Result.any ([] : List (Result T (ErrorHolder E W))) =
          Result.Err (AggregateError.mk []) := by
  exact fun T E W => ⟨rfl, rfl⟩
